import Mathlib

set_option autoImplicit false

/-!
Shallow embedding of the Icinga 2 cluster event-replication and
remote-command core: `ConfigObject` (configobject.cpp), the state
snapshot (`DumpObjects` / `RestoreObjects` / `RestoreObject`), and the
inbound API event handlers (apievents.cpp).  External collaborators that
are not part of the sources under verification (the generated reflection
code, the serializer, JSON and netstring codecs, zones and the listener)
are modelled as explicit environment parameters or as effect traces.
-/

namespace Icinga

/-- Runtime `Value`: the JSON-like variant type of the code base.
Numbers are modelled as integers (the claims under study do not depend
on floating-point behaviour), dictionaries as association lists. -/
inductive Value where
  | empty
  | boolV (b : Bool)
  | intV (n : Int)
  | strV (s : String)
  | dict (entries : List (String × Value))

/-- Mirrors `Value::IsEmpty`: only the `Empty` variant is empty; a
dictionary value is never empty, even with zero entries. -/
def Value.isEmptyV : Value → Bool
  | .empty => true
  | _ => false

/-- Mirrors `Value::IsObjectType<Dictionary>`. -/
def Value.isDict : Value → Bool
  | .dict _ => true
  | _ => false

/-- Mirrors the implicit `Value`-to-`String` cast used by e.g.
`persistentObject->Get("type")` assigned to a `String`. -/
def valueToString : Value → String
  | .empty => ""
  | .boolV b => if b then "true" else "false"
  | .intV n => toString n
  | .strV s => s
  | .dict _ => ""

/-- `Dictionary::Get`: absent keys yield `Empty`. -/
def dictGet : List (String × Value) → String → Value
  | [], _ => .empty
  | (k, v) :: rest, key => if k = key then v else dictGet rest key

/-- `Dictionary::Contains`. -/
def dictContains : List (String × Value) → String → Bool
  | [], _ => false
  | (k, _) :: rest, key => k = key || dictContains rest key

/-- `Dictionary::Set`: replace an existing binding in place, else append. -/
def dictSet : List (String × Value) → String → Value → List (String × Value)
  | [], key, v => [(key, v)]
  | (k, w) :: rest, key, v =>
      if k = key then (k, v) :: rest else (k, w) :: dictSet rest key v

/-- `Dictionary::Remove`. -/
def dictRemove : List (String × Value) → String → List (String × Value)
  | [], _ => []
  | (k, w) :: rest, key =>
      if k = key then dictRemove rest key else (k, w) :: dictRemove rest key

/-- Helper for `splitDot`. -/
def splitDotAux : List Char → List Char → List String
  | [], acc => [String.mk acc.reverse]
  | c :: rest, acc =>
      if c = '.' then String.mk acc.reverse :: splitDotAux rest []
      else splitDotAux rest (c :: acc)

/-- Mirrors `boost::algorithm::split(tokens, attr, boost::is_any_of("."))`:
the empty string yields one empty token. -/
def splitDot (s : String) : List String := splitDotAux s.data []

/-- Field attribute class `FAConfig` (bit value as in base/type.hpp). -/
def FAConfig : Nat := 2

/-- Field attribute class `FAState`. -/
def FAState : Nat := 4

/-- One entry of a reflection type's field table: the field name and its
attribute-class bitmask (`Field::Attributes`). -/
structure FieldSpec where
  fname : String
  attrs : Nat

/-- A reflection type: the ordered field table, plus the per-type
`ValidateField` hook.  The field table and validator are produced by
generated code outside the sources under verification, so they are
environment data here; `ModifyAttribute` consults them exactly where the
source does. -/
structure ReflType where
  fields : List FieldSpec
  validate : Nat → Value → Bool

/-- `Type::GetFieldId`: position of a declared field by name; `none` for
an unknown name (the source then fails with an invalid-field error). -/
def ReflType.getFieldId (t : ReflType) (name : String) : Option Nat :=
  t.fields.findIdx? (fun f => f.fname = name)

/-- Does a field of the given id carry `FAConfig`?  Mirrors
`field.Attributes & FAConfig`. -/
def ReflType.fieldIsConfig (t : ReflType) (fid : Nat) : Bool :=
  ((t.fields.getD fid ⟨"", 0⟩).attrs &&& FAConfig) ≠ 0

/-- The state of one `ConfigObject`.  Typed fields are a vector indexed
by field id; `deserializeCalls` records every `Deserialize` applied to
the object — the serializer itself is external code, so its invocations
(payload, `safe` flag, attribute mask) are kept as a trace. -/
structure ConfigObject where
  name : String
  rtype : ReflType
  fieldValues : List Value
  version : Int
  originalAttributes : Option (List (String × Value))
  active : Bool
  stateLoaded : Bool
  deserializeCalls : List (Value × Bool × Nat)
  onStateLoadedCount : Nat

/-- `ConfigObject::GetField` (by field id). -/
def ConfigObject.getField (o : ConfigObject) (fid : Nat) : Value :=
  o.fieldValues.getD fid .empty

/-- The value saved for a tracked attribute path, `Empty` if untracked. -/
def ConfigObject.originalValue (o : ConfigObject) (attr : String) : Value :=
  dictGet (o.originalAttributes.getD []) attr

/-- `ConfigObject::IsAttributeModified`. -/
def ConfigObject.isAttributeModified (o : ConfigObject) (attr : String) : Bool :=
  match o.originalAttributes with
  | none => false
  | some d => dictContains d attr

/-- The nested-path walk of `ConfigObject::ModifyAttribute` over
`tokens[1..]`: descend through dictionaries, creating empty ones for
missing keys, failing with `invalid_argument` whenever an intermediate
(or the final container) value is not a dictionary; at the deepest
dictionary bind the last token to `value`. -/
def insertNested : Value → List String → Value → Except String Value
  | cur, [key], value =>
      match cur with
      | .dict d => .ok (.dict (dictSet d key value))
      | _ => .error "Value must be a dictionary."
  | cur, key :: rest, value =>
      match cur with
      | .dict d =>
          let child := if dictContains d key then dictGet d key else .dict []
          match insertNested child rest value with
          | .ok child2 => .ok (.dict (dictSet d key child2))
          | .error e => .error e
      | _ => .error "Value must be a dictionary."
  | _, [], _ => .error "Value must be a dictionary."

/-- Result of a mutator that, like the C++ code, may have committed
partial updates to the object before an exception was thrown: `obj` is
the object state when the call returns or the exception escapes. -/
structure ModifyOutcome where
  obj : ConfigObject
  err : Option String

/-- The original-attributes step of `ConfigObject::ModifyAttribute`: if
the head field carries `FAConfig` and the full path is not yet tracked,
record `(attr, old field value)` (creating the dictionary on first
use). -/
def ConfigObject.recordOriginal (o : ConfigObject) (fid : Nat) (attr : String) : ConfigObject :=
  if o.rtype.fieldIsConfig fid then
    if dictContains (o.originalAttributes.getD []) attr then o
    else
      { o with
          originalAttributes :=
            some (dictSet (o.originalAttributes.getD []) attr (o.getField fid)) }
  else o

/-- The head token of a dotted attribute path (`tokens[0]`). -/
def headToken (attr : String) : String := (splitDot attr).headD ""

/-- The new-value computation of `ConfigObject::ModifyAttribute`: for a
dotted path, the nested walk applied to the old field value (an empty
old value is replaced by a fresh dictionary first); for a single token,
just the proposed value. -/
def ConfigObject.newValueFor (o : ConfigObject) (fid : Nat) (attr : String) (value : Value) :
    Except String Value :=
  if (splitDot attr).length > 1 then
    insertNested (if (o.getField fid).isEmptyV then Value.dict [] else o.getField fid)
      (splitDot attr).tail value
  else .ok value

/-- `ConfigObject::ModifyAttribute`.  Step for step: split the path,
resolve the field id of the head token, read the old value, record
`(attr, old)` in `original-attributes` if the field is `FAConfig` and
the full path is untracked (this happens before any failure below),
build the new value (nested walk for dotted paths, with the empty old
value replaced by a fresh dictionary), validate, then commit the field
and bump the version. -/
def ConfigObject.modifyAttribute (o : ConfigObject) (attr : String) (value : Value) :
    ModifyOutcome :=
  match o.rtype.getFieldId (headToken attr) with
  | none => { obj := o, err := some "Invalid field ID." }
  | some fid =>
      match o.newValueFor fid attr value with
      | .error e => { obj := o.recordOriginal fid attr, err := some e }
      | .ok newValue =>
          if o.rtype.validate fid newValue then
            { obj := { o.recordOriginal fid attr with
                         fieldValues := (o.recordOriginal fid attr).fieldValues.set fid newValue,
                         version := (o.recordOriginal fid attr).version + 1 },
              err := none }
          else { obj := o.recordOriginal fid attr, err := some "Validation failed." }

/-- `ConfigObject::RestoreAttribute`.  Note that the source resolves the
field id of the *full* attribute path (`GetFieldId(attr)`), not of its
head token; the dictionary entry is removed only after the field write
succeeded. -/
def ConfigObject.restoreAttribute (o : ConfigObject) (attr : String) : ModifyOutcome :=
  match o.originalAttributes with
  | none => { obj := o, err := none }
  | some d =>
      if dictContains d attr then
        let attrVal := dictGet d attr
        match o.rtype.getFieldId attr with
        | none => { obj := o, err := some "Invalid field ID." }
        | some fid =>
            { obj := { o with fieldValues := o.fieldValues.set fid attrVal,
                              originalAttributes := some (dictRemove d attr) },
              err := none }
      else { obj := o, err := none }

/-- A sequence of `ModifyAttribute` calls; the Boolean records whether
every call in the sequence succeeded. -/
def applyModifications : ConfigObject → List (String × Value) → ConfigObject × Bool
  | o, [] => (o, true)
  | o, m :: rest =>
      let r := o.modifyAttribute m.1 m.2
      let after := applyModifications r.obj rest
      (after.1, r.err.isNone && after.2)

/-! JSON and netstring encodings.  `JsonEncode` (lib/base/json.cpp) and
`NetString::WriteStringToStream` (lib/base/netstring.cpp) are outside
the sources under verification; they are modelled from the spec: JSON
text for the value tree, and net-string framing
`<decimal-length> ':' <payload> ','`. -/

mutual
/-- Modelled from the spec: `JsonEncode` (lib/base/json.cpp is not in
src/) — JSON text of a value tree. -/
def jsonEncode : Value → String
  | .empty => "null"
  | .boolV b => if b then "true" else "false"
  | .intV n => toString n
  | .strV s => "\"" ++ s ++ "\""
  | .dict d => "\x7b" ++ jsonEncodeEntries d ++ "\x7d"

/-- Entries of a JSON object, comma separated. -/
def jsonEncodeEntries : List (String × Value) → String
  | [] => ""
  | (k, v) :: rest =>
      "\"" ++ k ++ "\":" ++ jsonEncode v ++
        (if rest.isEmpty then "" else ",") ++ jsonEncodeEntries rest
end

/-- Modelled from the spec: net-string framing of one record
(`NetString::WriteStringToStream`, lib/base/netstring.cpp is not in
src/): decimal length, colon, payload, comma. -/
def netstring (s : String) : String := toString s.length ++ ":" ++ s ++ ","

/-! A minimal file-system state for the snapshot and repository writers:
an association of path to file content. -/

/-- File system: paths mapped to contents. -/
def FS : Type := List (String × String)

/-- Content of a file, `none` when the path does not exist
(`Utility::PathExists` is `isSome`). -/
def fsGet : FS → String → Option String
  | [], _ => none
  | (p, c) :: rest, path => if p = path then some c else fsGet rest path

/-- Create or overwrite a file. -/
def fsSet : FS → String → String → FS
  | [], path, c => [(path, c)]
  | (p, d) :: rest, path, c =>
      if p = path then (p, c) :: rest else (p, d) :: fsSet rest path c

/-- Unlink a file. -/
def fsRemove : FS → String → FS
  | [], _ => []
  | (p, d) :: rest, path =>
      if p = path then fsRemove rest path else (p, d) :: fsRemove rest path

/-- Modelled from the spec: `Serialize(object, attributeTypes)`
(lib/base/serializer.cpp is not in src/) — a mapping from field name to
value restricted to the fields whose attribute-class bitmask intersects
the mask. -/
def serializeObject (o : ConfigObject) (mask : Nat) : Value :=
  .dict ((o.rtype.fields.enum.filterMap fun p =>
    if p.2.attrs &&& mask ≠ 0 then some (p.2.fname, o.getField p.1) else none))

/-- The per-type object registry (`ConfigType::GetTypes` with
`ConfigType::GetObjects`): type name to the objects of that type. -/
def Registry : Type := List (String × List ConfigObject)

/-- `ConfigType::GetByName` composed with the per-type object list. -/
def findType : Registry → String → Option (List ConfigObject)
  | [], _ => none
  | (t, objs) :: rest, tname => if t = tname then some objs else findType rest tname

/-- `ConfigType::GetObject` on a type found by name. -/
def getObject (reg : Registry) (tname name : String) : Option ConfigObject :=
  match findType reg tname with
  | none => none
  | some objs => objs.find? (fun o => o.name = name)

/-- In-place mutation of the registered object of the given type and
name (shared-pointer update in the C++ code). -/
def updateObject : Registry → String → String → (ConfigObject → ConfigObject) → Registry
  | [], _, _, _ => []
  | (t, objs) :: rest, tname, name, f =>
      if t = tname then
        (t, objs.map fun o => if o.name = name then f o else o) ::
          updateObject rest tname name f
      else (t, objs) :: updateObject rest tname name f

/-- One serialized snapshot record, exactly as `DumpObjects` builds it:
`{"type": ..., "name": ..., "update": Serialize(object, mask)}`. -/
def snapshotRecord (tname : String) (o : ConfigObject) (mask : Nat) : String :=
  netstring (jsonEncode (.dict
    [("type", .strV tname), ("name", .strV o.name), ("update", serializeObject o mask)]))

/-- Full content written by `DumpObjects`: the concatenation of all
records over all types and objects, in registry order. -/
def dumpContent (reg : Registry) (mask : Nat) : String :=
  String.join (reg.map fun p => String.join (p.2.map fun o => snapshotRecord p.1 o mask))

/-- Structured errors raised by the snapshot and repository writers:
`std::runtime_error`, and `posix_error` decorated with the failing API
function, `errno` and the file name. -/
inductive IoError where
  | runtimeError (msg : String)
  | posixError (apiFunction : String) (errnoV : Int) (fileName : String)
deriving DecidableEq

/-- Environment of `DumpObjects`: whether opening the temp file and the
final `rename(2)` succeed, and the `errno` a failing rename reports. -/
structure DumpEnv where
  openOk : Bool
  renameOk : Bool
  renameErrno : Int

/-- Outcome of `DumpObjects`: the file system as left behind, and the
error that escaped, if any. -/
structure DumpResult where
  fs : FS
  err : Option IoError

/-- `ConfigObject::DumpObjects` (POSIX branch, without the
Windows-only `_unlink` of the final path): write every record to
`filename + ".tmp"`, then rename the temp file over the final path;
a failed open raises `runtime_error`, a failed rename raises
`posix_error` carrying `"rename"`, `errno` and the temp file name. -/
def DumpObjects (env : DumpEnv) (fs : FS) (reg : Registry) (filename : String) (mask : Nat) :
    DumpResult :=
  if !env.openOk then
    { fs := fs,
      err := some (.runtimeError ("Could not open '" ++ (filename ++ ".tmp") ++ "' file")) }
  else
    let fs1 := fsSet fs (filename ++ ".tmp") (dumpContent reg mask)
    if env.renameOk then
      { fs := fsSet (fsRemove fs1 (filename ++ ".tmp")) filename (dumpContent reg mask),
        err := none }
    else
      { fs := fs1, err := some (.posixError "rename" env.renameErrno (filename ++ ".tmp")) }

/-- `ConfigObject::RestoreObject` on one decoded snapshot record
(`JsonDecode` of the framed message, lib/base/json.cpp, is external and
the record arrives here already parsed).  Unknown type or unknown
object name: return silently.  Otherwise the object receives
`Deserialize(object, update, false, attributeTypes)` — recorded as a
trace entry `(update, safe := false, mask)` since the serializer is
external — then `OnStateLoaded()` and `SetStateLoaded(true)`. -/
def RestoreObject (reg : Registry) (record : Value) (mask : Nat) : Registry :=
  match record with
  | .dict pd =>
      match findType reg (valueToString (dictGet pd "type")) with
      | none => reg
      | some objs =>
          let name := valueToString (dictGet pd "name")
          if (objs.find? (fun o => o.name = name)).isSome then
            updateObject reg (valueToString (dictGet pd "type")) name fun o =>
              { o with
                  deserializeCalls :=
                    o.deserializeCalls ++ [(dictGet pd "update", false, mask)],
                  onStateLoadedCount := o.onStateLoadedCount + 1,
                  stateLoaded := true }
          else reg
  | _ => reg

/-- One framing status delivered by `NetString::ReadStringFromStream`
before EOF: a complete record (already JSON-decoded here), or any other
non-EOF status, which the reader loop skips. -/
inductive ReadItem where
  | newItem (record : Value)
  | skipped

/-- Environment of `RestoreObjects`: the net-string/JSON decoding of a
file's content (lib/base/netstring.cpp and lib/base/json.cpp are not in
src/; modelled from the spec as an external stream decoder). -/
structure RestoreEnv where
  decode : String → List ReadItem

/-- The pass after the work queue drains: every object that was not
restored from the snapshot still receives `OnStateLoaded()` once and is
marked state-loaded. -/
def markNoState (reg : Registry) : Registry :=
  reg.map fun p =>
    (p.1, p.2.map fun o =>
      if !o.stateLoaded then
        { o with onStateLoadedCount := o.onStateLoadedCount + 1, stateLoaded := true }
      else o)

/-- Outcome of `RestoreObjects`: the registry, the error that escaped
(if any), and the count of enqueued records. -/
structure RestoreObjectsResult where
  reg : Registry
  err : Option IoError
  restored : Nat

/-- `ConfigObject::RestoreObjects`: if the path does not exist, return
at once (no error); otherwise decode the stream, feed every complete
record to `RestoreObject` (other statuses are skipped), then give every
untouched object its `OnStateLoaded` in the final pass. -/
def RestoreObjects (env : RestoreEnv) (fs : FS) (reg : Registry) (filename : String)
    (mask : Nat) : RestoreObjectsResult :=
  match fsGet fs filename with
  | none => { reg := reg, err := none, restored := 0 }
  | some content =>
      let items := env.decode content
      let reg1 := items.foldl (fun r item =>
        match item with
        | .newItem record => RestoreObject r record mask
        | .skipped => r) reg
      { reg := markNoState reg1,
        err := none,
        restored := items.countP (fun i => match i with | .newItem _ => true | _ => false) }

/-! The inbound API event handlers (apievents.cpp).  Endpoints, zones
and the listener live in lib/remote (not in src/); they appear here as
the data the handlers inspect: an origin carries the sending client
(with its optional endpoint) and the optional sending zone, and the
zone-access and zone-hierarchy predicates are environment functions
modelled from the spec (`CanAccessObject`, `IsChildOf`). -/

/-- A peer endpoint (`Endpoint::Ptr`), by name. -/
structure EndpointRef where
  ename : String
deriving DecidableEq

/-- The connection a message arrived on (`origin->FromClient`). -/
structure ClientRef where
  endpoint : Option EndpointRef
  identity : String
deriving DecidableEq

/-- `MessageOrigin`: sending client and sending zone (zone by name;
`none` models a null `FromZone`). -/
structure MessageOrigin where
  fromClient : ClientRef
  fromZone : Option String
deriving DecidableEq

/-- A service as the handler resolves it (`GetServiceByShortName`). -/
structure ServiceSt where
  shortName : String
  checkInterval : Value

/-- A host with its services (`Host::GetByName`). -/
structure HostSt where
  hname : String
  checkInterval : Value
  services : List ServiceSt

/-- The checkable the message refers to: the host itself, or one of its
services. -/
inductive TargetRef where
  | host (hname : String)
  | service (hname : String) (sname : String)
deriving DecidableEq

/-- Environment of the per-object event handlers: the zone-access
check.  Modelled from the spec: `zone->CanAccessObject(checkable)`
(lib/remote/zone.cpp is not in src/). -/
structure ApiEnv where
  canAccessObject : String → TargetRef → Bool

/-- Target resolution of the common handler pattern: a null `params`
dictionary, an unknown host, or an unknown service short name all fail
to resolve. -/
def resolveTarget (hosts : List HostSt) (params : Option (List (String × Value))) :
    Option TargetRef :=
  match params with
  | none => none
  | some d =>
      match hosts.find? (fun h => h.hname = valueToString (dictGet d "host")) with
      | none => none
      | some h =>
          if dictContains d "service" then
            match h.services.find?
                (fun s => s.shortName = valueToString (dictGet d "service")) with
            | some s => some (.service h.hname s.shortName)
            | none => none
          else some (.host h.hname)

/-- The mutation the handler commits: `checkable->SetCheckInterval`
applied to the resolved host or service. -/
def setCheckIntervalW (hosts : List HostSt) (t : TargetRef) (v : Value) : List HostSt :=
  match t with
  | .host hn => hosts.map fun h => if h.hname = hn then { h with checkInterval := v } else h
  | .service hn sn =>
      hosts.map fun h =>
        if h.hname = hn then
          { h with services := h.services.map fun s =>
              if s.shortName = sn then { s with checkInterval := v } else s }
        else h

/-- One invocation of the target's setter, with the received value and
the origin that is threaded through for replication suppression. -/
structure SetterCall where
  target : TargetRef
  value : Value
  origin : MessageOrigin

/-- Result of an inbound per-object event handler: the host world after
the call, the setter invocations performed, and the notice-level log
lines emitted. -/
structure HandlerResult where
  hosts : List HostSt
  setterCalls : List SetterCall
  logs : List String

/-- `ApiEvents::CheckIntervalChangedAPIHandler`: discard (with a notice
log) when the client has no endpoint; return silently on null params or
an unresolvable host/service; discard (with a notice log) when the
sending zone exists and may not access the target; otherwise call
`SetCheckInterval(params["interval"], false, origin)`. -/
def CheckIntervalChangedAPIHandler (env : ApiEnv) (hosts : List HostSt)
    (origin : MessageOrigin) (params : Option (List (String × Value))) : HandlerResult :=
  match origin.fromClient.endpoint with
  | none =>
      { hosts := hosts, setterCalls := [],
        logs := ["Discarding 'check interval changed' message from '" ++
          origin.fromClient.identity ++ "': Invalid endpoint origin (client not allowed)."] }
  | some _ =>
      match params with
      | none => { hosts := hosts, setterCalls := [], logs := [] }
      | some d =>
          match resolveTarget hosts (some d) with
          | none => { hosts := hosts, setterCalls := [], logs := [] }
          | some t =>
              let allowed :=
                match origin.fromZone with
                | some z => env.canAccessObject z t
                | none => true
              if allowed then
                { hosts := setCheckIntervalW hosts t (dictGet d "interval"),
                  setterCalls := [⟨t, dictGet d "interval", origin⟩],
                  logs := [] }
              else
                { hosts := hosts, setterCalls := [],
                  logs := ["Discarding 'check interval' changed message from '" ++
                    origin.fromClient.identity ++ "': Unauthorized access."] }

/-- The discard condition of claim C1, following the spec's words: no
endpoint on the origin's client, or an unresolvable target, or a
non-null origin zone that may not access the target. -/
def specDiscardsEvent (env : ApiEnv) (hosts : List HostSt) (origin : MessageOrigin)
    (params : Option (List (String × Value))) : Bool :=
  origin.fromClient.endpoint.isNone ||
  (resolveTarget hosts params).isNone ||
  (match origin.fromZone, resolveTarget hosts params with
   | some z, some t => !env.canAccessObject z t
   | _, _ => false)

/-- `ServiceUnknown` (enum value 3). -/
def ServiceUnknown : Nat := 3

/-- Observable effects of `ExecuteCommandAPIHandler`: a synthetic
check-result message sent point-to-point (`MakeCheckResultMessage`
followed by `SyncSendMessage`), an `ExecuteRemoteCheck` invocation, or
an `ExecuteEventHandler` invocation. -/
inductive ExecEffect where
  | syncSendCheckResult (dest : String) (state : Nat) (output : String)
  | remoteCheck (hostName : String)
  | eventHandler (hostName : String)
deriving DecidableEq

/-- Result of the execute-command handler: its effect trace and its log
lines. -/
structure ExecResult where
  effects : List ExecEffect
  logs : List String
deriving DecidableEq

/-- Environment of `ExecuteCommandAPIHandler`: the listener singleton
and its `accept_commands` flag, the local endpoint and zone, the
registered command names, the zone-hierarchy test (modelled from the
spec: `Zone::GetLocalZone()->IsChildOf(origin->FromZone)`,
lib/remote/zone.cpp is not in src/), and whether `ExecuteRemoteCheck`
throws (with the diagnostic text of the exception). -/
structure CommandEnv where
  listenerPresent : Bool
  acceptCommands : Bool
  listenerName : String
  localEndpointName : String
  localZone : String
  isChildOf : String → String → Bool
  checkCommands : List String
  eventCommands : List String
  checkExceptionDiag : Option String

/-- `ApiEvents::ExecuteCommandAPIHandler`.  One guard discards the
message when the client has no endpoint or when the sending zone exists
and the local zone is not a child of it.  A listener that refuses
commands answers with a synthetic unknown check result and executes
nothing; an unknown check command likewise; an unknown event command
only logs a warning; otherwise the check (with a synthetic unknown
result on an exception) or the event handler runs. -/
def ExecuteCommandAPIHandler (env : CommandEnv) (origin : MessageOrigin)
    (params : List (String × Value)) : ExecResult :=
  let discard : ExecResult :=
    { effects := [],
      logs := ["Discarding 'execute command' message from '" ++
        origin.fromClient.identity ++ "': Invalid endpoint origin (client not allowed)."] }
  match origin.fromClient.endpoint with
  | none => discard
  | some src =>
      if (match origin.fromZone with
          | some z => !env.isChildOf env.localZone z
          | none => false) then
        discard
      else if !env.listenerPresent then
        { effects := [], logs := ["No instance available."] }
      else if !env.acceptCommands then
        { effects := [.syncSendCheckResult src.ename ServiceUnknown
            ("Endpoint '" ++ env.localEndpointName ++ "' does not accept commands.")],
          logs := ["Ignoring command. '" ++ env.listenerName ++
            "' does not accept commands."] }
      else
        let hostName := valueToString (dictGet params "host")
        let command := valueToString (dictGet params "command")
        let ctype := valueToString (dictGet params "command_type")
        if ctype = "check_command" then
          if !env.checkCommands.contains command then
            { effects := [.syncSendCheckResult src.ename ServiceUnknown
                ("Check command '" ++ command ++ "' does not exist.")],
              logs := [] }
          else
            match env.checkExceptionDiag with
            | none => { effects := [.remoteCheck hostName], logs := [] }
            | some diag =>
                { effects := [.remoteCheck hostName,
                    .syncSendCheckResult src.ename ServiceUnknown
                      ("Exception occured while checking '" ++ hostName ++ "': " ++ diag)],
                  logs := ["Exception occured while checking '" ++ hostName ++ "': " ++ diag] }
        else if ctype = "event_command" then
          if !env.eventCommands.contains command then
            { effects := [],
              logs := ["Event command '" ++ command ++ "' does not exist."] }
          else { effects := [.eventHandler hostName], logs := [] }
        else { effects := [], logs := [] }

/-- Environment of `UpdateRepositoryAPIHandler`: the listener
singleton, the repository directory, the rename outcome, the digest
function (`SHA256`, lib/base/tlsutility.cpp is not in src/; modelled as
an abstract digest), and the local zone the message is re-relayed
to. -/
structure RepoEnv where
  listenerPresent : Bool
  renameOk : Bool
  renameErrno : Int
  repositoryDir : String
  digest : String → String
  localZone : String

/-- A call to `ApiListener::RelayMessage`. -/
structure RelayCall where
  origin : MessageOrigin
  zone : String
  message : Value
  logged : Bool

/-- Result of the repository handler: file system, the relay performed
(if any), and the error that escaped (if any). -/
structure RepoResult where
  fs : FS
  relay : Option RelayCall
  err : Option IoError

/-- The re-relayed repository message, rebuilt exactly as the handler
does. -/
def repoMessage (d : List (String × Value)) : Value :=
  .dict [("jsonrpc", .strV "2.0"), ("method", .strV "event::UpdateRepository"),
         ("params", .dict d)]

/-- `ApiEvents::UpdateRepositoryAPIHandler`: no check on the origin at
all; return silently unless `params["repository"]` is a dictionary
value; write `JsonEncode(params)` to
`<repositoryDir><SHA256(params["endpoint"])>.repo` through a temp file
and `rename(2)` (POSIX branch; a failed rename raises `posix_error`),
then re-relay the message to the local zone (logged) when a listener
exists. -/
def UpdateRepositoryAPIHandler (env : RepoEnv) (fs : FS) (origin : MessageOrigin)
    (params : Option (List (String × Value))) : RepoResult :=
  match params with
  | none => { fs := fs, relay := none, err := none }
  | some d =>
      if (dictGet d "repository").isEmptyV || !(dictGet d "repository").isDict then
        { fs := fs, relay := none, err := none }
      else
        let repositoryFile :=
          env.repositoryDir ++ env.digest (valueToString (dictGet d "endpoint")) ++ ".repo"
        let fs1 := fsSet fs (repositoryFile ++ ".tmp") (jsonEncode (.dict d))
        if !env.renameOk then
          { fs := fs1, relay := none,
            err := some (.posixError "rename" env.renameErrno (repositoryFile ++ ".tmp")) }
        else
          let fs2 := fsSet (fsRemove fs1 (repositoryFile ++ ".tmp")) repositoryFile
            (jsonEncode (.dict d))
          if !env.listenerPresent then
            { fs := fs2, relay := none, err := none }
          else
            { fs := fs2,
              relay := some ⟨origin, env.localZone, repoMessage d, true⟩,
              err := none }

/-! Concrete fixtures used by counterexamples and witnesses. -/

/-- A reflection type with a single `FAConfig` field `vars` whose
validator accepts everything. -/
def varsOnlyType : ReflType :=
  { fields := [⟨"vars", FAConfig⟩], validate := fun _ _ => true }

/-- A host object `h1` with `vars = {}`. -/
def hostH1 : ConfigObject :=
  { name := "h1", rtype := varsOnlyType, fieldValues := [Value.dict []], version := 0,
    originalAttributes := none, active := false, stateLoaded := false,
    deserializeCalls := [], onStateLoadedCount := 0 }

/-- A host object whose `vars` already binds `os` to a string, so that
a deeper path below `vars.os` hits a non-dictionary intermediate. -/
def hostH2 : ConfigObject :=
  { name := "h2", rtype := varsOnlyType,
    fieldValues := [Value.dict [("os", Value.strV "linux")]], version := 0,
    originalAttributes := none, active := false, stateLoaded := false,
    deserializeCalls := [], onStateLoadedCount := 0 }

/-- A registry holding the single inactive host `h1`. -/
def restoreRegistry0 : Registry := [("Host", [hostH1])]

/-- A decoded snapshot record for `h1`. -/
def restoreRecord0 : Value :=
  Value.dict [("type", Value.strV "Host"), ("name", Value.strV "h1"),
              ("update", Value.dict [("vars", Value.intV 1)])]

/-- A restore environment whose stream decoder yields no records. -/
def emptyDecodeEnv : RestoreEnv := { decode := fun _ => [] }

/-- A dump environment in which `rename(2)` fails with `EACCES`. -/
def dumpEnvRenameFails : DumpEnv := { openOk := true, renameOk := false, renameErrno := 13 }

/-- A zone world that denies every access. -/
def denyAllEnv : ApiEnv := { canAccessObject := fun _ _ => false }

/-- A world with one service-less host `H`. -/
def hostsW : List HostSt := [{ hname := "H", checkInterval := Value.intV 60, services := [] }]

/-- An origin from endpoint `E1` in zone `Z1`. -/
def originE1Z1 : MessageOrigin :=
  { fromClient := { endpoint := some ⟨"E1"⟩, identity := "E1" }, fromZone := some "Z1" }

/-- Parameters of an `event::SetCheckInterval` message for host `H`. -/
def paramsSetInterval : List (String × Value) :=
  [("host", Value.strV "H"), ("interval", Value.intV 30)]

/-- A command environment that accepts commands, knows the check
command `ping` and no event commands, and whose zone relation always
holds. -/
def execEnvAccept : CommandEnv :=
  { listenerPresent := true, acceptCommands := true, listenerName := "api",
    localEndpointName := "agent1", localZone := "child", isChildOf := fun _ _ => true,
    checkCommands := ["ping"], eventCommands := [], checkExceptionDiag := none }

/-- The same command environment with `accept_commands = false`. -/
def execEnvRefuse : CommandEnv := { execEnvAccept with acceptCommands := false }

/-- The same command environment with a zone relation that never
holds. -/
def execEnvNotChild : CommandEnv := { execEnvAccept with isChildOf := fun _ _ => false }

/-- Parameters of an `event::ExecuteCommand` message naming an unknown
event command. -/
def execParamsEventMissing : List (String × Value) :=
  [("host", Value.strV "h"), ("command", Value.strV "restart_svc"),
   ("command_type", Value.strV "event_command")]

/-- A repository environment with a working rename, a present listener
and the identity as stand-in digest. -/
def repoEnv0 : RepoEnv :=
  { listenerPresent := true, renameOk := true, renameErrno := 0,
    repositoryDir := "/var/lib/icinga2/api/repository/", digest := fun s => s,
    localZone := "master" }

/-- An origin whose client has no endpoint and that carries no zone. -/
def noEndpointOrigin : MessageOrigin :=
  { fromClient := { endpoint := none, identity := "anon" }, fromZone := none }

/-- Parameters of an `event::UpdateRepository` message from `node1`. -/
def repoParams0 : List (String × Value) :=
  [("endpoint", Value.strV "node1"), ("repository", Value.dict [("h1", Value.dict [])])]

end Icinga

namespace Icinga

/-! Association-list lemmas. -/

theorem dictContains_set_self (d : List (String × Value)) (k : String) (v : Value) :
    dictContains (dictSet d k v) k = true := by
  induction d with
  | nil => simp [dictSet, dictContains]
  | cons hd tl ih =>
      obtain ⟨k1, w⟩ := hd
      by_cases h : k1 = k <;> simp [dictSet, dictContains, h, ih]

theorem dictGet_set_self (d : List (String × Value)) (k : String) (v : Value) :
    dictGet (dictSet d k v) k = v := by
  induction d with
  | nil => simp [dictSet, dictGet]
  | cons hd tl ih =>
      obtain ⟨k1, w⟩ := hd
      by_cases h : k1 = k <;> simp [dictSet, dictGet, h, ih]

/-! Lemmas about the original-attributes recording step. -/

theorem recordOriginal_version (o : ConfigObject) (fid : Nat) (attr : String) :
    (o.recordOriginal fid attr).version = o.version := by
  unfold ConfigObject.recordOriginal
  split
  · split <;> rfl
  · rfl

theorem recordOriginal_fieldValues (o : ConfigObject) (fid : Nat) (attr : String) :
    (o.recordOriginal fid attr).fieldValues = o.fieldValues := by
  unfold ConfigObject.recordOriginal
  split
  · split <;> rfl
  · rfl

theorem recordOriginal_tracks (o : ConfigObject) (fid : Nat) (attr : String)
    (hc : o.rtype.fieldIsConfig fid = true) (hnot : o.isAttributeModified attr = false) :
    (o.recordOriginal fid attr).isAttributeModified attr = true ∧
    (o.recordOriginal fid attr).originalValue attr = o.getField fid := by
  have hd0 : dictContains (o.originalAttributes.getD []) attr = false := by
    cases h : o.originalAttributes with
    | none => simp [dictContains]
    | some d => simpa [ConfigObject.isAttributeModified, h] using hnot
  simp [ConfigObject.recordOriginal, hc, hd0, ConfigObject.isAttributeModified,
    ConfigObject.originalValue, dictContains_set_self, dictGet_set_self]

/-! Shape lemmas for `ModifyAttribute`: what a successful and what a
failed call return. -/

theorem modifyAttribute_ok_shape (o : ConfigObject) (attr : String) (v : Value)
    (h : (o.modifyAttribute attr v).err = none) :
    ∃ fid newValue,
      o.rtype.getFieldId (headToken attr) = some fid ∧
      o.rtype.validate fid newValue = true ∧
      o.modifyAttribute attr v =
        { obj := { o.recordOriginal fid attr with
                     fieldValues := (o.recordOriginal fid attr).fieldValues.set fid newValue,
                     version := (o.recordOriginal fid attr).version + 1 },
          err := none } := by
  unfold ConfigObject.modifyAttribute at h ⊢
  cases hfid : o.rtype.getFieldId (headToken attr) with
  | none => simp only [hfid] at h; simp at h
  | some fid =>
      simp only [hfid] at h ⊢
      cases hnv : o.newValueFor fid attr v with
      | error e => simp only [hnv] at h; simp at h
      | ok newValue =>
          simp only [hnv] at h ⊢
          by_cases hval : o.rtype.validate fid newValue = true
          · exact ⟨fid, newValue, rfl, hval, by rw [if_pos hval]⟩
          · rw [if_neg hval] at h; simp at h

theorem modifyAttribute_err_shape (o : ConfigObject) (attr : String) (v : Value) (fid : Nat)
    (hfid : o.rtype.getFieldId (headToken attr) = some fid)
    (herr : (o.modifyAttribute attr v).err ≠ none) :
    ∃ e, o.modifyAttribute attr v = { obj := o.recordOriginal fid attr, err := some e } := by
  unfold ConfigObject.modifyAttribute at herr ⊢
  simp only [hfid] at herr ⊢
  cases hnv : o.newValueFor fid attr v with
  | error e => simp only [hnv]; exact ⟨e, rfl⟩
  | ok newValue =>
      simp only [hnv] at herr ⊢
      by_cases hval : o.rtype.validate fid newValue = true
      · rw [if_pos hval] at herr; simp at herr
      · exact ⟨"Validation failed.", by rw [if_neg hval]⟩

/-- Every successful `ModifyAttribute` bumps the version by one. -/
theorem modify_version_succ (o : ConfigObject) (attr : String) (v : Value)
    (h : (o.modifyAttribute attr v).err = none) :
    (o.modifyAttribute attr v).obj.version = o.version + 1 := by
  obtain ⟨fid, nv, _, _, heq⟩ := modifyAttribute_ok_shape o attr v h
  rw [heq]
  simp [recordOriginal_version]

/-- After a sequence of all-successful `ModifyAttribute` calls the
version has grown by the number of calls. -/
theorem applyModifications_version (o : ConfigObject) (mods : List (String × Value))
    (hok : (applyModifications o mods).2 = true) :
    (applyModifications o mods).1.version = o.version + mods.length := by
  induction mods generalizing o with
  | nil => simp [applyModifications]
  | cons m rest ih =>
      have hsplit : (o.modifyAttribute m.1 m.2).err.isNone = true ∧
          (applyModifications (o.modifyAttribute m.1 m.2).obj rest).2 = true := by
        simpa [applyModifications, Bool.and_eq_true] using hok
      have hstep : (o.modifyAttribute m.1 m.2).obj.version = o.version + 1 :=
        modify_version_succ o m.1 m.2 (Option.isNone_iff_eq_none.mp hsplit.1)
      have htail := ih (o.modifyAttribute m.1 m.2).obj hsplit.2
      simp only [applyModifications]
      rw [htail, hstep]
      simp only [List.length_cons]
      push_cast
      ring

/-- C8: every successful `ModifyAttribute` call increments the version
counter by exactly one, so the version strictly increases on every
successful call, and after a sequence of N all-successful
`ModifyAttribute` calls the version equals the starting version plus
N. -/
theorem modifyAttribute_version_strict_increase (o : ConfigObject)
    (mods : List (String × Value))
    (hok : (applyModifications o mods).2 = true) :
    (∀ attr v, (o.modifyAttribute attr v).err = none →
      (o.modifyAttribute attr v).obj.version = o.version + 1) ∧
    (applyModifications o mods).1.version = o.version + mods.length :=
  ⟨fun attr v h => modify_version_succ o attr v h, applyModifications_version o mods hok⟩

/-- Witness for C8: two successful modifications of `vars` on a
concrete host raise the version from 0 to 2. -/
theorem modifyAttribute_version_strict_increase_witness :
    (applyModifications hostH1 [("vars", Value.intV 1), ("vars", Value.intV 2)]).1.version =
      hostH1.version + [("vars", Value.intV 1), ("vars", Value.intV 2)].length :=
  (modifyAttribute_version_strict_increase hostH1
    [("vars", Value.intV 1), ("vars", Value.intV 2)] (by decide)).2

/-- C9: when `ModifyAttribute` fails after resolving the head field
(nested walk hitting a non-dictionary, or validation rejecting the
value), the field vector and the version are unchanged, but if the head
field carries `FAConfig` and the path was untracked, the pair
`(path, pre-call value)` is already recorded, so `IsAttributeModified`
answers true although nothing was committed. -/
theorem modifyAttribute_failure_records_original (o : ConfigObject) (attr : String)
    (v : Value) (fid : Nat)
    (hfid : o.rtype.getFieldId (headToken attr) = some fid)
    (herr : (o.modifyAttribute attr v).err ≠ none) :
    (o.modifyAttribute attr v).obj.fieldValues = o.fieldValues ∧
    (o.modifyAttribute attr v).obj.version = o.version ∧
    (o.rtype.fieldIsConfig fid = true → o.isAttributeModified attr = false →
      (o.modifyAttribute attr v).obj.isAttributeModified attr = true ∧
      (o.modifyAttribute attr v).obj.originalValue attr = o.getField fid) := by
  obtain ⟨e, heq⟩ := modifyAttribute_err_shape o attr v fid hfid herr
  rw [heq]
  exact ⟨recordOriginal_fieldValues o fid attr, recordOriginal_version o fid attr,
    fun hc hnot => recordOriginal_tracks o fid attr hc hnot⟩

/-- Witness for C9: `vars.os.x` on a host whose `vars.os` is a string
fails in the nested walk, leaves field and version alone, yet tracks
the path with the pre-call `vars` value. -/
theorem modifyAttribute_failure_records_original_witness :
    (hostH2.modifyAttribute "vars.os.x" (Value.strV "y")).obj.fieldValues =
      hostH2.fieldValues ∧
    (hostH2.modifyAttribute "vars.os.x" (Value.strV "y")).obj.version = hostH2.version ∧
    (hostH2.rtype.fieldIsConfig 0 = true → hostH2.isAttributeModified "vars.os.x" = false →
      (hostH2.modifyAttribute "vars.os.x" (Value.strV "y")).obj.isAttributeModified
        "vars.os.x" = true ∧
      (hostH2.modifyAttribute "vars.os.x" (Value.strV "y")).obj.originalValue "vars.os.x" =
        hostH2.getField 0) :=
  modifyAttribute_failure_records_original hostH2 "vars.os.x" (Value.strV "y") 0
    (by rfl) (by decide)

/-- C3 (divergence witness): the modify-modify-restore sequence of the
claim, run at the nested path `vars.os` of a concrete host.
`RestoreAttribute` resolves the field id of the *full* dotted path
(`GetFieldId(attr)`, flagged `TODO-MA: vars.os` in the source), which
fails, so the restore raises an invalid-field error, the path stays
tracked, and the head field `vars` keeps `{"os": "bsd"}` instead of the
saved pre-modification value `{}`. -/
theorem restoreAttribute_nested_path_fails :
    ((((hostH1.modifyAttribute "vars.os" (Value.strV "linux")).obj.modifyAttribute
        "vars.os" (Value.strV "bsd")).obj.restoreAttribute "vars.os").err =
      some "Invalid field ID.") ∧
    ((((hostH1.modifyAttribute "vars.os" (Value.strV "linux")).obj.modifyAttribute
        "vars.os" (Value.strV "bsd")).obj.restoreAttribute
        "vars.os").obj.isAttributeModified "vars.os" = true) ∧
    ((((hostH1.modifyAttribute "vars.os" (Value.strV "linux")).obj.modifyAttribute
        "vars.os" (Value.strV "bsd")).obj.restoreAttribute "vars.os").obj.getField 0 =
      Value.dict [("os", Value.strV "bsd")]) ∧
    hostH1.getField 0 = Value.dict [] :=
  ⟨rfl, rfl, rfl, rfl⟩

/-! Registry lemmas: updating the registered object of a type/name pair
is observed by the lookup. -/

theorem find_map_update (objs : List ConfigObject) (name : String)
    (f : ConfigObject → ConfigObject) (hf : ∀ o, (f o).name = o.name) :
    (objs.map fun o => if o.name = name then f o else o).find?
        (fun o => o.name = name) =
      (objs.find? (fun o => o.name = name)).map f := by
  induction objs with
  | nil => rfl
  | cons o rest ih =>
      by_cases h : o.name = name
      · simp [List.find?, h, hf]
      · simp [List.find?, h, ih]

theorem findType_updateObject (reg : Registry) (tname name : String)
    (f : ConfigObject → ConfigObject) :
    findType (updateObject reg tname name f) tname =
      (findType reg tname).map
        (fun objs => objs.map fun o => if o.name = name then f o else o) := by
  induction reg with
  | nil => rfl
  | cons p rest ih =>
      obtain ⟨t, objs⟩ := p
      by_cases h : t = tname
      · subst h
        simp [updateObject, findType]
      · simp [updateObject, findType, h, ih]

theorem getObject_updateObject (reg : Registry) (tname name : String)
    (f : ConfigObject → ConfigObject) (hf : ∀ o, (f o).name = o.name) :
    getObject (updateObject reg tname name f) tname name =
      (getObject reg tname name).map f := by
  unfold getObject
  rw [findType_updateObject]
  cases findType reg tname with
  | none => rfl
  | some objs => simp [find_map_update objs name f hf]

/-- C2 (amended): a snapshot record whose type and name resolve to a
registered, not-yet-active object makes the restore worker apply
`Deserialize` to that object with `safe = false`, then `OnStateLoaded`,
then `state-loaded = true`. -/
theorem restoreObject_applies_deserialize (reg : Registry) (pd : List (String × Value))
    (mask : Nat) (o : ConfigObject) (objs : List ConfigObject)
    (hty : findType reg (valueToString (dictGet pd "type")) = some objs)
    (hobj : objs.find? (fun x => x.name = valueToString (dictGet pd "name")) = some o)
    (_hinactive : o.active = false) :
    getObject (RestoreObject reg (.dict pd) mask) (valueToString (dictGet pd "type"))
        (valueToString (dictGet pd "name")) =
      some { o with
               deserializeCalls := o.deserializeCalls ++ [(dictGet pd "update", false, mask)],
               onStateLoadedCount := o.onStateLoadedCount + 1,
               stateLoaded := true } := by
  unfold RestoreObject
  simp only [hty]
  have hsome : (objs.find? (fun x => x.name = valueToString (dictGet pd "name"))).isSome =
      true := by rw [hobj]; rfl
  rw [if_pos hsome]
  rw [getObject_updateObject reg (valueToString (dictGet pd "type"))
    (valueToString (dictGet pd "name"))
    (fun x => { x with
                  deserializeCalls :=
                    x.deserializeCalls ++ [(dictGet pd "update", false, mask)],
                  onStateLoadedCount := x.onStateLoadedCount + 1,
                  stateLoaded := true })
    (fun x => rfl)]
  simp [getObject, hty, hobj]

/-- Witness for C2: the concrete record for `h1` leaves the registered
object with one recorded `Deserialize(update, safe = false, mask)`
call, one `OnStateLoaded` call and `state-loaded = true`. -/
theorem restoreObject_applies_deserialize_witness :
    getObject (RestoreObject restoreRegistry0 restoreRecord0 6) "Host" "h1" =
      some { hostH1 with
               deserializeCalls := [(Value.dict [("vars", Value.intV 1)], false, 6)],
               onStateLoadedCount := 1, stateLoaded := true } :=
  restoreObject_applies_deserialize restoreRegistry0
    [("type", Value.strV "Host"), ("name", Value.strV "h1"),
     ("update", Value.dict [("vars", Value.intV 1)])]
    6 hostH1 [hostH1] rfl rfl rfl

/-- C2 counterexample: at the concrete record for `h1`, the recorded
`Deserialize` call carries `safe = false`, not `safe = true` as the
claim states. -/
theorem restoreObject_safe_flag_counterexample :
    ((getObject (RestoreObject restoreRegistry0 restoreRecord0 6) "Host" "h1").map
      (fun o => o.deserializeCalls.map (fun c => c.2.1))) = some [false] ∧
    ¬ (((getObject (RestoreObject restoreRegistry0 restoreRecord0 6) "Host" "h1").map
      (fun o => o.deserializeCalls.map (fun c => c.2.1))) = some [true]) :=
  ⟨rfl, by decide⟩

/-- C5 counterexample: `RestoreObjects` on a file system without the
snapshot file returns normally — no I/O error is raised and the
registry is untouched. -/
theorem restoreObjects_missing_file_no_error :
    (RestoreObjects emptyDecodeEnv [] restoreRegistry0 "/var/lib/icinga2/icinga2.state"
        6).err = none ∧
    (RestoreObjects emptyDecodeEnv [] restoreRegistry0 "/var/lib/icinga2/icinga2.state"
        6).reg = restoreRegistry0 :=
  ⟨rfl, rfl⟩

/-- C5 (amended): `RestoreObjects` never raises an error: a missing
path returns at once with the registry untouched and nothing restored;
an existing file is processed record by record with non-item statuses
skipped. -/
theorem restoreObjects_never_raises (env : RestoreEnv) (fs : FS) (reg : Registry)
    (filename : String) (mask : Nat) :
    (RestoreObjects env fs reg filename mask).err = none ∧
    (fsGet fs filename = none →
      (RestoreObjects env fs reg filename mask).reg = reg ∧
      (RestoreObjects env fs reg filename mask).restored = 0) := by
  unfold RestoreObjects
  cases h : fsGet fs filename with
  | none => exact ⟨rfl, fun _ => ⟨rfl, rfl⟩⟩
  | some content => exact ⟨rfl, fun hc => by simp at hc⟩

/-- Witness for C5 at a concrete empty file system. -/
theorem restoreObjects_never_raises_witness :
    (RestoreObjects emptyDecodeEnv [] restoreRegistry0 "/p" 6).err = none ∧
    (fsGet ([] : FS) "/p" = none →
      (RestoreObjects emptyDecodeEnv [] restoreRegistry0 "/p" 6).reg = restoreRegistry0 ∧
      (RestoreObjects emptyDecodeEnv [] restoreRegistry0 "/p" 6).restored = 0) :=
  restoreObjects_never_raises emptyDecodeEnv [] restoreRegistry0 "/p" 6

/-! File-system lemmas. -/

theorem fsGet_set_self (fs : FS) (p c : String) : fsGet (fsSet fs p c) p = some c := by
  induction fs with
  | nil => simp [fsSet, fsGet]
  | cons hd tl ih =>
      obtain ⟨q, d⟩ := hd
      by_cases h : q = p <;> simp [fsSet, fsGet, h, ih]

theorem fsGet_set_other (fs : FS) (p q c : String) (h : p ≠ q) :
    fsGet (fsSet fs p c) q = fsGet fs q := by
  induction fs with
  | nil => simp [fsSet, fsGet, h]
  | cons hd tl ih =>
      obtain ⟨r, d⟩ := hd
      by_cases hr : r = p
      · subst hr
        simp [fsSet, fsGet, h]
      · simp [fsSet, fsGet, hr, ih]

theorem append_tmp_ne (s : String) : s ++ ".tmp" ≠ s := by
  intro h
  have hlen := congrArg String.length h
  rw [String.length_append] at hlen
  have h4 : ".tmp".length = 4 := rfl
  omega

/-- C6: `DumpObjects` writes every record to `filename + ".tmp"`; a
successful rename installs that content at the final path; a failing
rename raises a `posix_error` carrying `"rename"`, the `errno` and the
temp file name, while the pre-existing content at the final path is
untouched and the complete dump sits in the temp file. -/
theorem dumpObjects_rename_atomic (env : DumpEnv) (fs : FS) (reg : Registry)
    (filename : String) (mask : Nat) (hopen : env.openOk = true) :
    (env.renameOk = true →
      (DumpObjects env fs reg filename mask).err = none ∧
      fsGet (DumpObjects env fs reg filename mask).fs filename =
        some (dumpContent reg mask)) ∧
    (env.renameOk = false →
      (DumpObjects env fs reg filename mask).err =
        some (.posixError "rename" env.renameErrno (filename ++ ".tmp")) ∧
      fsGet (DumpObjects env fs reg filename mask).fs filename = fsGet fs filename ∧
      fsGet (DumpObjects env fs reg filename mask).fs (filename ++ ".tmp") =
        some (dumpContent reg mask)) := by
  constructor
  · intro hr
    simp [DumpObjects, hopen, hr, fsGet_set_self]
  · intro hr
    refine ⟨by simp [DumpObjects, hopen, hr], ?_, ?_⟩
    · simp only [DumpObjects, hopen, Bool.not_true, Bool.false_eq_true, if_false, hr]
      exact fsGet_set_other fs (filename ++ ".tmp") filename (dumpContent reg mask)
        (append_tmp_ne filename)
    · simp [DumpObjects, hopen, hr, fsGet_set_self]

/-- Witness for C6: a failing rename over a file system that already
holds a snapshot at the target path. -/
theorem dumpObjects_rename_atomic_witness :
    (dumpEnvRenameFails.renameOk = true →
      (DumpObjects dumpEnvRenameFails [("/snap", "old")] restoreRegistry0 "/snap" 6).err =
        none ∧
      fsGet (DumpObjects dumpEnvRenameFails [("/snap", "old")] restoreRegistry0 "/snap"
        6).fs "/snap" = some (dumpContent restoreRegistry0 6)) ∧
    (dumpEnvRenameFails.renameOk = false →
      (DumpObjects dumpEnvRenameFails [("/snap", "old")] restoreRegistry0 "/snap" 6).err =
        some (.posixError "rename" dumpEnvRenameFails.renameErrno ("/snap" ++ ".tmp")) ∧
      fsGet (DumpObjects dumpEnvRenameFails [("/snap", "old")] restoreRegistry0 "/snap"
        6).fs "/snap" = fsGet [("/snap", "old")] "/snap" ∧
      fsGet (DumpObjects dumpEnvRenameFails [("/snap", "old")] restoreRegistry0 "/snap"
        6).fs ("/snap" ++ ".tmp") = some (dumpContent restoreRegistry0 6)) :=
  dumpObjects_rename_atomic dumpEnvRenameFails [("/snap", "old")] restoreRegistry0
    "/snap" 6 rfl

/-- C1: the inbound check-interval handler leaves the world unchanged
and invokes no setter exactly when the claim's discard condition holds
(client without endpoint, unresolvable host/service target, or a
non-null sending zone without access to the target); otherwise it
applies `SetCheckInterval` once, with the received `interval` value and
the inbound origin. -/
theorem checkIntervalHandler_guarded (env : ApiEnv) (hosts : List HostSt)
    (origin : MessageOrigin) (params : Option (List (String × Value))) :
    (specDiscardsEvent env hosts origin params = true →
      (CheckIntervalChangedAPIHandler env hosts origin params).hosts = hosts ∧
      (CheckIntervalChangedAPIHandler env hosts origin params).setterCalls = []) ∧
    (specDiscardsEvent env hosts origin params = false →
      ∀ d t, params = some d → resolveTarget hosts params = some t →
        CheckIntervalChangedAPIHandler env hosts origin params =
          { hosts := setCheckIntervalW hosts t (dictGet d "interval"),
            setterCalls := [⟨t, dictGet d "interval", origin⟩], logs := [] }) := by
  cases hep : origin.fromClient.endpoint with
  | none =>
      refine ⟨fun _ => ?_, fun hd => ?_⟩
      · simp [CheckIntervalChangedAPIHandler, hep]
      · simp [specDiscardsEvent, hep] at hd
  | some ep =>
      cases params with
      | none =>
          refine ⟨fun _ => ?_, fun _ d t hpd _ => ?_⟩
          · simp [CheckIntervalChangedAPIHandler, hep]
          · cases hpd
      | some d =>
          cases hres : resolveTarget hosts (some d) with
          | none =>
              refine ⟨fun _ => ?_, fun _ dd tt hpd hrt => ?_⟩
              · simp [CheckIntervalChangedAPIHandler, hep, hres]
              · cases hrt
          | some t =>
              cases hz : origin.fromZone with
              | none =>
                  refine ⟨fun hd => ?_, fun _ dd tt hpd hrt => ?_⟩
                  · simp [specDiscardsEvent, hep, hres, hz] at hd
                  · obtain rfl : d = dd := by injection hpd
                    obtain rfl : t = tt := by injection hrt
                    simp [CheckIntervalChangedAPIHandler, hep, hres, hz]
              | some z =>
                  cases hca : env.canAccessObject z t with
                  | false =>
                      refine ⟨fun _ => ?_, fun hd => ?_⟩
                      · simp [CheckIntervalChangedAPIHandler, hep, hres, hz, hca]
                      · simp [specDiscardsEvent, hep, hres, hz, hca] at hd
                  | true =>
                      refine ⟨fun hd => ?_, fun _ dd tt hpd hrt => ?_⟩
                      · simp [specDiscardsEvent, hep, hres, hz, hca] at hd
                      · obtain rfl : d = dd := by injection hpd
                        obtain rfl : t = tt := by injection hrt
                        simp [CheckIntervalChangedAPIHandler, hep, hres, hz, hca]

/-- Witness for C1: zone `Z1` without access to host `H` makes the
receiver discard the message without mutating. -/
theorem checkIntervalHandler_guarded_witness :
    (CheckIntervalChangedAPIHandler denyAllEnv hostsW originE1Z1
      (some paramsSetInterval)).hosts = hostsW ∧
    (CheckIntervalChangedAPIHandler denyAllEnv hostsW originE1Z1
      (some paramsSetInterval)).setterCalls = [] :=
  (checkIntervalHandler_guarded denyAllEnv hostsW originE1Z1 (some paramsSetInterval)).1
    (by decide)

/-- C7: an `ExecuteCommand` message whose sending zone is non-null is
acted on only when the local zone is a child of that zone: when
`IsChildOf` fails, the handler emits its discard log and returns with
no execution and no synthetic result — `CanAccessObject` plays no role
in this handler. -/
theorem executeCommand_requires_child_zone (env : CommandEnv) (origin : MessageOrigin)
    (params : List (String × Value)) (z : String)
    (hz : origin.fromZone = some z)
    (hnc : env.isChildOf env.localZone z = false) :
    (ExecuteCommandAPIHandler env origin params).effects = [] ∧
    (ExecuteCommandAPIHandler env origin params).logs =
      ["Discarding 'execute command' message from '" ++ origin.fromClient.identity ++
       "': Invalid endpoint origin (client not allowed)."] := by
  cases hep : origin.fromClient.endpoint with
  | none => exact ⟨by simp [ExecuteCommandAPIHandler, hep],
      by simp [ExecuteCommandAPIHandler, hep]⟩
  | some src =>
      have hcond : (match origin.fromZone with
          | some z1 => !env.isChildOf env.localZone z1
          | none => false) = true := by
        rw [hz]
        simp [hnc]
      exact ⟨by simp [ExecuteCommandAPIHandler, hep, hcond],
        by simp [ExecuteCommandAPIHandler, hep, hcond]⟩

/-- Witness for C7: a zone relation that never holds makes the handler
drop the command with only the discard log. -/
theorem executeCommand_requires_child_zone_witness :
    (ExecuteCommandAPIHandler execEnvNotChild originE1Z1 execParamsEventMissing).effects =
      [] ∧
    (ExecuteCommandAPIHandler execEnvNotChild originE1Z1 execParamsEventMissing).logs =
      ["Discarding 'execute command' message from '" ++ originE1Z1.fromClient.identity ++
       "': Invalid endpoint origin (client not allowed)."] :=
  executeCommand_requires_child_zone execEnvNotChild originE1Z1 execParamsEventMissing
    "Z1" rfl rfl

/-- C4 counterexample: an accepted `ExecuteCommand` request for an
unknown *event* command fails without any reply — the handler only logs
a warning and sends no synthetic check result, contradicting the claim
that every failing request is answered point-to-point. -/
theorem executeCommand_unknown_event_no_reply :
    (ExecuteCommandAPIHandler execEnvAccept originE1Z1 execParamsEventMissing).effects =
      [] ∧
    (ExecuteCommandAPIHandler execEnvAccept originE1Z1 execParamsEventMissing).logs =
      ["Event command 'restart_svc' does not exist."] ∧
    ¬ ∃ dest state output, ExecEffect.syncSendCheckResult dest state output ∈
        (ExecuteCommandAPIHandler execEnvAccept originE1Z1 execParamsEventMissing).effects := by
  refine ⟨rfl, rfl, ?_⟩
  rintro ⟨dest, state, output, hmem⟩
  have hnil : (ExecuteCommandAPIHandler execEnvAccept originE1Z1
      execParamsEventMissing).effects = [] := rfl
  rw [hnil] at hmem
  exact List.not_mem_nil _ hmem

/-- C4 (amended): on the check-command side every accepted failing
request is answered point-to-point with a synthetic `ServiceUnknown`
check result — refusal by `accept_commands = false`, an unknown check
command, and an exception during check execution all reply, with no
local execution in the first two cases; an unknown *event* command,
however, only logs a warning and sends nothing. -/
theorem executeCommand_failure_replies (env : CommandEnv) (origin : MessageOrigin)
    (params : List (String × Value)) (src : EndpointRef)
    (hep : origin.fromClient.endpoint = some src)
    (hzone : ∀ z, origin.fromZone = some z → env.isChildOf env.localZone z = true)
    (hl : env.listenerPresent = true) :
    (env.acceptCommands = false →
      ExecuteCommandAPIHandler env origin params =
        { effects := [.syncSendCheckResult src.ename ServiceUnknown
            ("Endpoint '" ++ env.localEndpointName ++ "' does not accept commands.")],
          logs := ["Ignoring command. '" ++ env.listenerName ++
            "' does not accept commands."] }) ∧
    (env.acceptCommands = true →
      valueToString (dictGet params "command_type") = "check_command" →
      env.checkCommands.contains (valueToString (dictGet params "command")) = false →
      ExecuteCommandAPIHandler env origin params =
        { effects := [.syncSendCheckResult src.ename ServiceUnknown
            ("Check command '" ++ valueToString (dictGet params "command") ++
             "' does not exist.")],
          logs := [] }) ∧
    (env.acceptCommands = true →
      valueToString (dictGet params "command_type") = "check_command" →
      env.checkCommands.contains (valueToString (dictGet params "command")) = true →
      ∀ diag, env.checkExceptionDiag = some diag →
      ExecuteCommandAPIHandler env origin params =
        { effects := [.remoteCheck (valueToString (dictGet params "host")),
            .syncSendCheckResult src.ename ServiceUnknown
              ("Exception occured while checking '" ++
               valueToString (dictGet params "host") ++ "': " ++ diag)],
          logs := ["Exception occured while checking '" ++
            valueToString (dictGet params "host") ++ "': " ++ diag] }) ∧
    (env.acceptCommands = true →
      valueToString (dictGet params "command_type") = "event_command" →
      env.eventCommands.contains (valueToString (dictGet params "command")) = false →
      ExecuteCommandAPIHandler env origin params =
        { effects := [],
          logs := ["Event command '" ++ valueToString (dictGet params "command") ++
            "' does not exist."] }) := by
  have hcond : (match origin.fromZone with
      | some z1 => !env.isChildOf env.localZone z1
      | none => false) = false := by
    cases hzz : origin.fromZone with
    | none => rfl
    | some z1 => simp [hzone z1 hzz]
  refine ⟨fun hacc => ?_, fun hacc hct hcc => ?_, fun hacc hct hcc diag hdiag => ?_,
    fun hacc hct hcc => ?_⟩
  · simp [ExecuteCommandAPIHandler, hep, hcond, hl, hacc]
  · have hcc1 : valueToString (dictGet params "command") ∉ env.checkCommands := by
      simpa using hcc
    simp [ExecuteCommandAPIHandler, hep, hcond, hl, hacc, hct, hcc1]
  · have hcc1 : valueToString (dictGet params "command") ∈ env.checkCommands := by
      simpa using hcc
    simp [ExecuteCommandAPIHandler, hep, hcond, hl, hacc, hct, hcc1, hdiag]
  · have hne : valueToString (dictGet params "command_type") ≠ "check_command" := by
      rw [hct]
      decide
    have hcc1 : valueToString (dictGet params "command") ∉ env.eventCommands := by
      simpa using hcc
    simp [ExecuteCommandAPIHandler, hep, hcond, hl, hacc, hct, hcc1, hne]

/-- Witness for C4: a listener that refuses commands answers `E1` with
the synthetic unknown result and runs nothing. -/
theorem executeCommand_failure_replies_witness :
    ExecuteCommandAPIHandler execEnvRefuse originE1Z1 execParamsEventMissing =
      { effects := [.syncSendCheckResult "E1" ServiceUnknown
          "Endpoint 'agent1' does not accept commands."],
        logs := ["Ignoring command. 'api' does not accept commands."] } :=
  (executeCommand_failure_replies execEnvRefuse originE1Z1 execParamsEventMissing
    ⟨"E1"⟩ rfl (fun _ _ => rfl) rfl).1 rfl

/-- C10: the repository handler inspects the origin in no way — for
*every* origin, endpoint-less or zone-less included, a params whose
`repository` member is a dictionary value is JSON-encoded and written
to `<repositoryDir><SHA256(endpoint)>.repo` (through temp file and
rename), and the message is re-relayed to the local zone (logged). -/
theorem updateRepository_no_authorization (env : RepoEnv) (fs : FS)
    (origin : MessageOrigin) (d rd : List (String × Value))
    (hrepo : dictGet d "repository" = Value.dict rd)
    (hrename : env.renameOk = true)
    (hlistener : env.listenerPresent = true) :
    fsGet (UpdateRepositoryAPIHandler env fs origin (some d)).fs
        (env.repositoryDir ++ env.digest (valueToString (dictGet d "endpoint")) ++
         ".repo") = some (jsonEncode (.dict d)) ∧
    (UpdateRepositoryAPIHandler env fs origin (some d)).relay =
      some ⟨origin, env.localZone, repoMessage d, true⟩ ∧
    (UpdateRepositoryAPIHandler env fs origin (some d)).err = none := by
  refine ⟨?_, ?_, ?_⟩ <;>
    simp [UpdateRepositoryAPIHandler, hrepo, Value.isEmptyV, Value.isDict, hrename,
      hlistener, fsGet_set_self]

/-- Witness for C10: an endpoint-less origin in no zone still gets its
repository update persisted and re-relayed. -/
theorem updateRepository_no_authorization_witness :
    fsGet (UpdateRepositoryAPIHandler repoEnv0 [] noEndpointOrigin (some repoParams0)).fs
        (repoEnv0.repositoryDir ++
         repoEnv0.digest (valueToString (dictGet repoParams0 "endpoint")) ++ ".repo") =
      some (jsonEncode (.dict repoParams0)) ∧
    (UpdateRepositoryAPIHandler repoEnv0 [] noEndpointOrigin (some repoParams0)).relay =
      some ⟨noEndpointOrigin, repoEnv0.localZone, repoMessage repoParams0, true⟩ ∧
    (UpdateRepositoryAPIHandler repoEnv0 [] noEndpointOrigin (some repoParams0)).err =
      none :=
  updateRepository_no_authorization repoEnv0 [] noEndpointOrigin repoParams0
    [("h1", Value.dict [])] rfl rfl rfl

end Icinga
